import Mathlib

/-!
# Users routes of the task manager (`server/routes/users.js`)

A shallow embedding of the six route handlers registered in
`server/routes/users.js`, of the English resource table `server/locales/en.js`
and of the environment the handlers talk to (the users table behind the ORM,
the session user, the flash store), followed by the properties proved about
them.

Layout: values and plain objects, the locale table and the translator, the
request context, the ORM interface, the handlers, a reference ORM, concrete
worlds, then the lemmas and the theorems.
-/

set_option autoImplicit false

namespace Users

/-! ## Values and plain objects -/

/-- A JavaScript value as it can occur in a parsed request body or in a
database row. Numbers are integers here; a nested array or object is kept as
its JSON text (`compound`), it is only ever passed through and is truthy. The
value `undefined` is the absence of a key, see `Obj.get`. -/
inductive JsVal where
  | null
  | bool (b : Bool)
  | num (n : Int)
  | str (s : String)
  | compound (json : String)
  deriving DecidableEq

/-- A plain object: its own enumerable properties in insertion order. -/
abbrev Obj := List (String × JsVal)

namespace Obj

/-- Property read `o[k]`; `none` stands for `undefined`. -/
def get (o : Obj) (k : String) : Option JsVal :=
  match o with
  | [] => none
  | (k', v) :: rest => if k' = k then some v else get rest k

/-- Property write `o[k] = v`: an existing key keeps its place, a new key is
appended. -/
def set (o : Obj) (k : String) (v : JsVal) : Obj :=
  match o with
  | [] => [(k, v)]
  | (k', v') :: rest => if k' = k then (k, v) :: rest else (k', v') :: set rest k v

/-- Property removal `delete o[k]`. -/
def erase (o : Obj) (k : String) : Obj :=
  o.filter (fun kv => decide (kv.1 ≠ k))

/-- The keys of an object, in order. -/
def keys (o : Obj) : List String :=
  o.map Prod.fst

/-- Copy of the properties of `src` onto `target`, one assignment per property,
in order: the effect of `Object.assign(target, src)` and of the spread
`{ ...target, ...src }`. -/
def assign (target src : Obj) : Obj :=
  src.foldl (fun acc kv => set acc kv.1 kv.2) target

end Obj

/-- JavaScript falsiness of a property read (`!o.k`): `undefined`, `null`,
`false`, `0` and the empty string are falsy, everything else is truthy. -/
def falsy : Option JsVal → Bool
  | none => true
  | some .null => true
  | some (.bool b) => !b
  | some (.num n) => decide (n = 0)
  | some (.str s) => decide (s = "")
  | some (.compound _) => false

/-- Strict equality `a === b` of two property reads. Primitives compare by
value; two compound values are distinct references. -/
def strictEq : Option JsVal → Option JsVal → Bool
  | some (.compound _), _ => false
  | _, some (.compound _) => false
  | a, b => decide (a = b)

/-! ## The English resource table and the translator -/

/-- A resource tree of a locale file: a text or a table of named subtrees. -/
inductive Res where
  | text (s : String)
  | table (entries : List (String × Res))

mutual
/-- Walks a path of keys down a resource tree. -/
def Res.walk : Res → List String → Option Res
  | r, [] => some r
  | .text _, _ :: _ => none
  | .table entries, k :: ks => Res.walkIn entries k ks
/-- Looks the first key up among the entries, then walks on. -/
def Res.walkIn : List (String × Res) → String → List String → Option Res
  | [], _, _ => none
  | (k', r) :: rest, k, ks => if k' = k then Res.walk r ks else Res.walkIn rest k ks
end

/-- The `translation` namespace exported by `server/locales/en.js`. -/
def en : Res :=
  .table [
    ("appName", .text "Task manager"),
    ("flash", .table [
      ("session", .table [
        ("create", .table [
          ("success", .text "You are logged in"),
          ("error", .text "Wrong email or password")]),
        ("delete", .table [
          ("success", .text "You are logged out")])]),
      ("users", .table [
        ("notAllowed", .text "You cant edit another user"),
        ("update", .table [
          ("success", .text "User changed"),
          ("error", .text "updating error")]),
        ("create", .table [
          ("error", .text "Failed to register"),
          ("success", .text "User registered successfully")])]),
      ("authError", .text "Access denied! Please login")]),
    ("layouts", .table [
      ("application", .table [
        ("users", .text "Users"),
        ("signIn", .text "Login"),
        ("signUp", .text "Register"),
        ("signOut", .text "Logout")])]),
    ("views", .table [
      ("session", .table [
        ("new", .table [
          ("signIn", .text "Login"),
          ("submit", .text "Login")])]),
      ("users", .table [
        ("actions", .text "actions"),
        ("fullName", .text "full name"),
        ("id", .text "ID"),
        ("email", .text "Email"),
        ("createdAt", .text "Created at"),
        ("new", .table [
          ("submit", .text "Register"),
          ("signUp", .text "Register")]),
        ("edit", .table [
          ("submit", .text "change"),
          ("title", .text "changing user")])]),
      ("welcome", .table [
        ("index", .table [
          ("hello", .text "Hello from Hexlet!"),
          ("description", .text "Online programming school"),
          ("more", .text "Learn more")])])])]

/-- Splits the characters of a key at every dot (the key separator). -/
def splitDots : List Char → List (List Char)
  | [] => [[]]
  | c :: cs =>
    if c = '.' then [] :: splitDots cs
    else
      match splitDots cs with
      | [] => [[c]]
      | seg :: segs => (c :: seg) :: segs

/-- The path of a dotted key such as `flash.users.notAllowed`. -/
def keyPath (key : String) : List String :=
  (splitDots key.toList).map String.mk

/-- The text stored in a resource table under a dotted key, if the key leads
to a text. -/
def Res.entry (table : Res) (key : String) : Option String :=
  match table.walk (keyPath key) with
  | some (.text s) => some s
  | _ => none

/-- Translation `i18next.t(key)` against a resource table: the stored text, or
the key itself when the table has no text under it. -/
def translate (table : Res) (key : String) : String :=
  (table.entry key).getD key

/-! ## The request context -/

/-- The users table: the rows of the `users` relation, each a plain object of
column values (the primary key is the column `id`). -/
abbrev Table := List Obj

/-- An error thrown by the model or by a query; `data` is its `data` property
(`none` when the error carries none, as a database error does). -/
structure JsError where
  data : Option Obj
  deriving DecidableEq

/-- A database query issued through the query builder. The context keeps the
trace of the queries a handler issues, in order. -/
inductive Query where
  | list
  | findById (id : String)
  | insert (inst : Obj)
  | patch (user : Obj) (data : Obj)
  | delete (user : Obj)
  deriving DecidableEq

/-- A value handed to a view. -/
inductive Local where
  | obj (o : Obj)
  | rows (t : Table)
  | null
  deriving DecidableEq

/-- What a request is answered with: `reply.render(view, locals)`,
`reply.redirect(location)` or `reply.status(code).send(body)` by the handler,
or, when the handler throws and nothing catches the error (`uncaught`), the
answer of the error handler of the framework. -/
inductive Reply where
  | render (view : String) (locals : List (String × Local))
  | redirect (location : String)
  | send (code : Nat) (body : String)
  | uncaught (err : JsError)
  deriving DecidableEq

/-- The status code of a reply: a render answers 200 and a redirect 302 (the
framework defaults, no handler overrides them); an uncaught error is answered
with 500. -/
def Reply.status : Reply → Nat
  | .render _ _ => 200
  | .redirect _ => 302
  | .send code _ => code
  | .uncaught _ => 500

/-- Whether a reply renders a view. -/
def Reply.isRender : Reply → Bool
  | .render _ _ => true
  | _ => false

/-- The state a request runs against and leaves behind: the users table, the
user carried by the session (`req.user`), the flash messages recorded so far
as pairs of type and text, and the trace of database queries. -/
structure Ctx where
  users : Table
  user : Option Obj
  flashes : List (String × String)
  queries : List Query
  deriving DecidableEq

/-- Records a flash message: `req.flash(kind, text)`. -/
def Ctx.flash (c : Ctx) (kind text : String) : Ctx :=
  { c with flashes := c.flashes ++ [(kind, text)] }

/-- Records that a query was issued. -/
def Ctx.issue (c : Ctx) (q : Query) : Ctx :=
  { c with queries := c.queries ++ [q] }

/-- Ends the login session: `req.logOut()`. -/
def Ctx.logOut (c : Ctx) : Ctx :=
  { c with user := none }

/-! ## The ORM interface and the application -/

/-- The operations of `app.objection.models.user` the handlers call. A query
that throws has written nothing, so a failing query returns only its error.
`set` is `$set(json)` on a fresh instance: it assigns the properties one by
one, which runs the setters of the model class and throws when one of them
does. `patch` and `delete` are the instance queries
`user.$query().patch(data)` and `user.$query().delete()`; their second
argument is the instance. -/
structure Orm where
  set : Obj → Except JsError Obj
  findById : Table → String → Option Obj
  fromJson : Obj → Except JsError Obj
  insert : Table → Obj → Except JsError Table
  patch : Table → Obj → Obj → Except JsError Table
  delete : Table → Obj → Except JsError Table

/-- The application the routes are registered on: its ORM and the translator
`i18next.t` as configured at start-up. -/
structure App where
  orm : Orm
  t : String → String

/-- Reverse routing `app.reverse(name)`: `users` and `newUser` are named in
`server/routes/users.js`; `root` is registered outside it, at `/`. A name that
is not registered has no path (the handlers use none). -/
def reverse (name : String) : String :=
  if name = "users" then "/users"
  else if name = "newUser" then "/users/new"
  else if name = "root" then "/"
  else ""

/-! ## The handlers of `server/routes/users.js` -/

/-- The handler of `GET /users`: lists the users. -/
def listUsers (_app : App) (c : Ctx) : Reply × Ctx :=
  let users := c.users
  let currentUser := match c.user with
    | some u => Local.obj u
    | none => Local.null
  (.render "users/index" [("users", .rows users), ("currentUser", currentUser)],
    c.issue .list)

/-- The handler of `GET /users/new`: renders the form on a fresh, empty user. -/
def newUser (_app : App) (c : Ctx) : Reply × Ctx :=
  (.render "users/new" [("user", .obj [])], c)

/-- The `catch` branch of `POST /users`: one error flash, then the form again
with the submitted data and the error's data (`err.data || {}`). -/
def createFailed (app : App) (data : Obj) (err : JsError) (c : Ctx) : Reply × Ctx :=
  (.render "users/new" [("user", .obj data), ("errors", .obj (err.data.getD []))],
    c.flash "error" (app.t "flash.users.create.error"))

/-- The handler of `POST /users`. It first fills a local `user` with
`user.$set(req.body.data)`; that statement stands before the `try`, so an
error it throws is caught by nothing. The `try` then validates and inserts. -/
def createUser (app : App) (data : Obj) (c : Ctx) : Reply × Ctx :=
  match app.orm.set data with
  | .error err => (.uncaught err, c)
  | .ok _user =>
    match app.orm.fromJson data with
    | .error err => createFailed app data err c
    | .ok validUser =>
      match app.orm.insert c.users validUser with
      | .error err => createFailed app data err (c.issue (.insert validUser))
      | .ok users =>
        (.redirect (reverse "root"),
          ({ c with users := users }.issue (.insert validUser)).flash "info"
            (app.t "flash.users.create.success"))

/-- The handler of `GET /users/:id/edit`, run for an authenticated `reqUser`. -/
def editUser (app : App) (id : String) (reqUser : Obj) (c : Ctx) : Reply × Ctx :=
  let c := c.issue (.findById id)
  match app.orm.findById c.users id with
  | none => (.send 404 "User not found", c)
  | some user =>
    if !(strictEq (reqUser.get "id") (user.get "id")) then
      (.redirect (reverse "users"), c.flash "error" (app.t "flash.users.notAllowed"))
    else
      (.render "users/edit" [("user", .obj user)], c)

/-- The object `updateData` of the PATCH handler: a copy of the submitted data
from which `password` is deleted when it is falsy. -/
def updateData (data : Obj) : Obj :=
  let copy : Obj := data
  if falsy (copy.get "password") then copy.erase "password" else copy

/-- The handler of `PATCH /users/:id`, run for an authenticated `reqUser`. -/
def updateUser (app : App) (id : String) (data : Obj) (reqUser : Obj) (c : Ctx) :
    Reply × Ctx :=
  let c := c.issue (.findById id)
  match app.orm.findById c.users id with
  | none => (.send 404 "User not found", c)
  | some user =>
    if !(strictEq (reqUser.get "id") (user.get "id")) then
      (.redirect (reverse "users"), c.flash "error" (app.t "flash.users.notAllowed"))
    else
      let c := c.issue (.patch user (updateData data))
      match app.orm.patch c.users user (updateData data) with
      | .ok users =>
        (.redirect (reverse "users"),
          { c with users := users }.flash "info" (app.t "flash.users.update.success"))
      | .error err =>
        let errors := err.data.getD []
        let userWithId := Obj.set data "id" (.str id)
        (.render "users/edit" [("user", .obj userWithId), ("errors", .obj errors)],
          c.flash "error" (app.t "flash.users.update.error"))

/-- The handler of `DELETE /users/:id`, run for an authenticated `reqUser`. -/
def deleteUser (app : App) (id : String) (reqUser : Obj) (c : Ctx) : Reply × Ctx :=
  let c := c.issue (.findById id)
  match app.orm.findById c.users id with
  | none => (.send 404 "User not found", c)
  | some user =>
    if !(strictEq (reqUser.get "id") (user.get "id")) then
      (.redirect (reverse "users"), c.flash "error" (app.t "flash.users.notAllowed"))
    else
      let c := c.issue (.delete user)
      match app.orm.delete c.users user with
      | .ok users =>
        (.redirect (reverse "root"),
          ({ c with users := users }.logOut).flash "info" (app.t "flash.users.delete.success"))
      | .error _ =>
        (.redirect (reverse "users"), c.flash "error" (app.t "flash.users.delete.error"))

/-- Modelled from the spec: the hook `app.authenticate` (it is defined in
`server/plugin.js`, which is not among the sources). Editing is
authentication-gated: a request that carries no authenticated user is answered
with a redirect to `/session/new` and the route handler is not run; otherwise
the handler runs with `req.user`. Whether the hook also records a flash
message is not specified; none is recorded here. -/
def authenticate (handler : Obj → Ctx → Reply × Ctx) (c : Ctx) : Reply × Ctx :=
  match c.user with
  | none => (.redirect "/session/new", c)
  | some reqUser => handler reqUser c

/-- A request to one of the six routes, with its `:id` parameter and its
`body.data` where the route has them. -/
inductive Request where
  | index
  | newForm
  | create (data : Obj)
  | edit (id : String)
  | update (id : String) (data : Obj)
  | destroy (id : String)
  deriving DecidableEq

/-- The route table: `editUser`, `updateUser` and `deleteUser` are registered
with `preValidation: app.authenticate`, the other three routes with no hook. -/
def handle (app : App) : Request → Ctx → Reply × Ctx
  | .index => listUsers app
  | .newForm => newUser app
  | .create data => createUser app data
  | .edit id => authenticate (editUser app id)
  | .update id data => authenticate (updateUser app id data)
  | .destroy id => authenticate (deleteUser app id)

/-- Whether a request is to one of the routes registered with
`preValidation: app.authenticate`. -/
def Request.gated : Request → Bool
  | .edit _ => true
  | .update _ _ => true
  | .destroy _ => true
  | _ => false

/-! ## A reference ORM over the users table -/

/-- Modelled from the spec: the model class `models/User.cjs`, the digest
function `lib/secure.cjs` and the database schema are not among the sources.
What they decide is taken as parameters: the digest `encrypt`, the text-to-key
comparison the database applies to `:id` at `findById`, the key the database
assigns to a new row, and which inputs the model or the database reject
(`setterCheck` for the setters run by `$set`, `validate` for `fromJson`, the
three checks for the three writing queries; `none` means accepted).
`fromJson` runs the same setters as `$set`, so data that `fromJson` accepts is
data on which `$set` returns (`coherent`). -/
structure UserModel where
  encrypt : JsVal → String
  coerceId : String → Option Int
  nextId : Table → Int
  setterCheck : Obj → Option JsError
  validate : Obj → Option JsError
  insertCheck : Table → Obj → Option JsError
  patchCheck : Table → Obj → Obj → Option JsError
  deleteCheck : Table → Obj → Option JsError
  coherent : ∀ json, validate json = none → setterCheck json = none

/-- Modelled from the spec: the column a submitted property is stored in. The
model stores a submitted `password` as `passwordDigest = encrypt(password)`
and never as `password`; every other property is stored under its own name. -/
def UserModel.column (M : UserModel) (kv : String × JsVal) : String × JsVal :=
  if kv.1 = "password" then ("passwordDigest", .str (M.encrypt kv.2)) else kv

/-- Modelled from the spec: one property assignment on a user instance. -/
def UserModel.assignProp (M : UserModel) (inst : Obj) (kv : String × JsVal) : Obj :=
  inst.set (M.column kv).1 (M.column kv).2

/-- Modelled from the spec: the instance built from a JSON object, its
properties assigned in order onto an empty instance. -/
def UserModel.instanceOf (M : UserModel) (json : Obj) : Obj :=
  json.foldl M.assignProp []

/-- The row a patch leaves in place of `row`: the columns of the instance
built from the patch object are written over it. -/
def UserModel.patchRow (M : UserModel) (data row : Obj) : Obj :=
  Obj.assign row (M.instanceOf data)

/-- The row filter of an instance query, `WHERE id = user.id`. -/
def sameId (user row : Obj) : Bool :=
  match user.get "id" with
  | some v => decide (row.get "id" = some v)
  | none => false

/-- The row an insert appends: the instance, with the key assigned by the
database in front when the instance brings none. -/
def UserModel.newRow (M : UserModel) (t : Table) (inst : Obj) : Obj :=
  if (inst.get "id").isSome then inst else ("id", .num (M.nextId t)) :: inst

/-- Modelled from the spec: the query builder of the user model over the
table. `findById` returns the first row whose key is the one `:id` denotes;
an accepted insert appends one row, an accepted patch rewrites the rows
selected by `WHERE id = user.id`, an accepted delete removes them; a rejected
query throws and writes nothing. `$set` builds the instance unless a setter
throws. -/
def userOrm (M : UserModel) : Orm where
  set json :=
    match M.setterCheck json with
    | some err => .error err
    | none => .ok (M.instanceOf json)
  findById t id :=
    match M.coerceId id with
    | some n => t.find? (fun row => decide (row.get "id" = some (.num n)))
    | none => none
  fromJson json :=
    match M.validate json with
    | some err => .error err
    | none => .ok (M.instanceOf json)
  insert t inst :=
    match M.insertCheck t inst with
    | some err => .error err
    | none => .ok (t ++ [M.newRow t inst])
  patch t user data :=
    match M.patchCheck t user data with
    | some err => .error err
    | none => .ok (t.map (fun row => if sameId user row then M.patchRow data row else row))
  delete t user :=
    match M.deleteCheck t user with
    | some err => .error err
    | none => .ok (t.filter (fun row => !(sameId user row)))

/-- The query `findOne({ email })` the tests read a record back with: the
first row whose `email` column is the given value. -/
def findOneByEmail (t : Table) (email : JsVal) : Option Obj :=
  t.find? (fun row => decide (row.get "email" = some email))

/-- The table after a request differs from the table before at most in the
rows whose key is `key`: every other row is still there, unchanged and in
place. -/
def OnlyDiffersAt (key : Option JsVal) (before after : Table) : Prop :=
  ∃ f : Obj → Option Obj, after = before.filterMap f ∧
    ∀ row : Obj, row.get "id" ≠ key → f row = some row

/-- A POST /users request fails with `err` when validation throws `err`, or
validation passes and the insert query throws `err`. -/
def CreateFails (app : App) (data : Obj) (c : Ctx) (err : JsError) : Prop :=
  app.orm.fromJson data = .error err ∨
    ∃ inst, app.orm.fromJson data = .ok inst ∧ app.orm.insert c.users inst = .error err

/-! ## Concrete worlds -/

/-- The password setter of the demo model: the digest is computed from a
string and throws, without error data, on a password that is not a string. -/
def demoSetter (json : Obj) : Option JsError :=
  match json.get "password" with
  | none => none
  | some (.str _) => none
  | some _ => some { data := none }

/-- A small user model: the digest prefixes the password text, `:id` denotes
the key it spells for the keys 1 to 3, a new row gets the next free position,
the password setter throws on a password that is not a string, an empty
`firstName` is rejected with error data, a taken email is rejected by the
database without error data, every delete is accepted. -/
def demoModel : UserModel where
  encrypt v :=
    match v with
    | .str s => "digest:" ++ s
    | _ => "digest"
  coerceId id :=
    if id = "1" then some 1 else if id = "2" then some 2 else if id = "3" then some 3
    else none
  nextId t := (t.length : Int) + 1
  setterCheck := demoSetter
  validate json :=
    if json.get "firstName" = some (.str "") then
      some { data := some [("firstName", .compound "[minLength]")] }
    else demoSetter json
  insertCheck t inst :=
    if t.any (fun row => decide (row.get "email" = inst.get "email")) then
      some { data := none }
    else none
  patchCheck _ _ data :=
    if data.get "firstName" = some (.str "") then
      some { data := some [("firstName", .compound "[minLength]")] }
    else none
  deleteCheck _ _ := none
  coherent := by
    intro json h
    dsimp only at h
    split at h
    · exact Option.noConfusion h
    · exact h

/-- The demo application: the reference ORM over the demo model, translating
against the English table. -/
def demoApp : App :=
  { orm := userOrm demoModel, t := translate en }

/-- The demo application over a database that refuses every delete. -/
def refusingApp : App :=
  { orm := userOrm { demoModel with deleteCheck := fun _ _ => some { data := none } },
    t := translate en }

/-- The stored record of the first demo user. -/
def alice : Obj :=
  [("id", .num 1), ("firstName", .str "Alice"), ("lastName", .str "A"),
    ("email", .str "alice@example.com"), ("passwordDigest", .str "digest:alicepw")]

/-- The stored record of the second demo user. -/
def bob : Obj :=
  [("id", .num 2), ("firstName", .str "Bob"), ("lastName", .str "B"),
    ("email", .str "bob@example.com"), ("passwordDigest", .str "digest:bobpw")]

/-- A world with two users in which the first one is logged in. -/
def demoCtx : Ctx :=
  { users := [alice, bob], user := some alice, flashes := [], queries := [] }

/-- The same world with nobody logged in. -/
def anonCtx : Ctx :=
  { users := [alice, bob], user := none, flashes := [], queries := [] }

/-- Registration data whose password is a number. -/
def danData : Obj :=
  [("firstName", .str "Dan"), ("lastName", .str "D"),
    ("email", .str "dan@example.com"), ("password", .num 123)]

/-- The registration data of a third user. -/
def carolData : Obj :=
  [("firstName", .str "Carol"), ("lastName", .str "C"),
    ("email", .str "carol@example.com"), ("password", .str "carolpw")]

/-! ## Lemmas -/

/-- Strict equality of two property reads implies that they are equal. -/
theorem strictEq_eq {a b : Option JsVal} (h : strictEq a b = true) : a = b := by
  unfold strictEq at h
  split at h <;> simp_all

/-- Two different property reads are not strictly equal. -/
theorem strictEq_false_of_ne {a b : Option JsVal} (h : a ≠ b) : strictEq a b = false := by
  cases hs : strictEq a b
  · rfl
  · exact absurd (strictEq_eq hs) h

/-- The route named users is at /users. -/
theorem reverse_users : reverse "users" = "/users" := by decide

/-- The route named root is at /. -/
theorem reverse_root : reverse "root" = "/" := by decide

/-- C8: a request to GET /users/:id/edit, PATCH /users/:id or DELETE /users/:id
that carries no authenticated user is answered with a redirect (302) to
/session/new; nothing is rendered, the users table is unchanged, and the route
handler is not run: no query is issued and the answer is the same whatever the
handlers of the application are. -/
theorem gated_routes_require_login (app : App) (req : Request) (c : Ctx)
    (hgated : req.gated = true) (hanon : c.user = none) :
    (handle app req c).1 = .redirect "/session/new" ∧
    (handle app req c).1.status = 302 ∧
    (handle app req c).1.isRender = false ∧
    (handle app req c).2.users = c.users ∧
    (handle app req c).2.queries = c.queries ∧
    ∀ other : App, handle other req c = handle app req c := by
  cases req <;> simp [Request.gated] at hgated <;>
    simp [handle, authenticate, hanon, Reply.status, Reply.isRender]

/-- C8, witness: nobody is logged in and DELETE /users/1 is sent. -/
theorem gated_routes_require_login_witness :
    (Request.destroy "1").gated = true ∧ anonCtx.user = none ∧
    (handle demoApp (.destroy "1") anonCtx).1 = .redirect "/session/new" ∧
    (handle demoApp (.destroy "1") anonCtx).2.users = [alice, bob] :=
  ⟨by decide, by decide,
    (gated_routes_require_login demoApp (.destroy "1") anonCtx (by decide) (by decide)).1,
    (gated_routes_require_login demoApp (.destroy "1") anonCtx (by decide) (by decide)).2.2.2.1⟩

/-- C2: on GET /users/:id/edit, PATCH /users/:id and DELETE /users/:id, when
the record with id :id exists and the authenticated requester's id is not that
record's id, the handler answers with a redirect (302) to /users, records
exactly one flash message, of type error with the text of
flash.users.notAllowed, renders nothing, issues no query besides the lookup by
id (so no patch and no delete query), and leaves the table as it was. -/
theorem foreign_record_refused (app : App) (req : Request) (id : String) (data : Obj)
    (c : Ctx) (reqUser user : Obj)
    (hreq : req = .edit id ∨ req = .update id data ∨ req = .destroy id)
    (hlogged : c.user = some reqUser)
    (hfound : app.orm.findById c.users id = some user)
    (hforeign : reqUser.get "id" ≠ user.get "id") :
    (handle app req c).1 = .redirect "/users" ∧
    (handle app req c).1.status = 302 ∧
    (handle app req c).1.isRender = false ∧
    (handle app req c).2.flashes = c.flashes ++ [("error", app.t "flash.users.notAllowed")] ∧
    (handle app req c).2.queries = c.queries ++ [.findById id] ∧
    (handle app req c).2.users = c.users := by
  have hne := strictEq_false_of_ne hforeign
  rcases hreq with h | h | h <;> subst h <;>
    simp [handle, authenticate, hlogged, editUser, updateUser, deleteUser, Ctx.issue,
      Ctx.flash, hfound, hne, reverse_users, Reply.status, Reply.isRender]

/-- C2, witness: the first demo user sends PATCH /users/2. -/
theorem foreign_record_refused_witness :
    demoCtx.user = some alice ∧ demoApp.orm.findById demoCtx.users "2" = some bob ∧
    alice.get "id" ≠ bob.get "id" ∧
    (handle demoApp (.update "2" [("firstName", .str "Hack")]) demoCtx).1 = .redirect "/users" ∧
    (handle demoApp (.update "2" [("firstName", .str "Hack")]) demoCtx).2.users = [alice, bob] :=
  ⟨by decide, by decide, by decide,
    (foreign_record_refused demoApp (.update "2" [("firstName", .str "Hack")]) "2"
      [("firstName", .str "Hack")] demoCtx alice bob (Or.inr (Or.inl rfl)) (by decide)
      (by decide) (by decide)).1,
    (foreign_record_refused demoApp (.update "2" [("firstName", .str "Hack")]) "2"
      [("firstName", .str "Hack")] demoCtx alice bob (Or.inr (Or.inl rfl)) (by decide)
      (by decide) (by decide)).2.2.2.2.2⟩


/-- C5: when an authenticated user sends PATCH /users/:id for their own id and
the patch query rejects the data, the users table is unchanged, the answer is
not a redirect but a render of users/edit with status 200 whose user is the
submitted data extended with id = :id and whose errors is the data of the
error (or the empty object when the error has none), and exactly one flash is
recorded, of type error with the text of flash.users.update.error. -/
theorem rejected_update_rerenders (app : App) (id : String) (data : Obj) (c : Ctx)
    (reqUser user : Obj) (err : JsError)
    (hlogged : c.user = some reqUser)
    (hfound : app.orm.findById c.users id = some user)
    (hown : strictEq (reqUser.get "id") (user.get "id") = true)
    (hrejected : app.orm.patch c.users user (updateData data) = .error err) :
    (handle app (.update id data) c).2.users = c.users ∧
    (handle app (.update id data) c).1 =
      .render "users/edit"
        [("user", .obj (Obj.set data "id" (.str id))), ("errors", .obj (err.data.getD []))] ∧
    (handle app (.update id data) c).1.status = 200 ∧
    (handle app (.update id data) c).1.isRender = true ∧
    (handle app (.update id data) c).2.flashes =
      c.flashes ++ [("error", app.t "flash.users.update.error")] := by
  simp [handle, authenticate, hlogged, updateUser, Ctx.issue, Ctx.flash, hfound, hown,
    hrejected, Reply.status, Reply.isRender]

/-- C5, witness: the first demo user patches their record with an empty first
name. -/
theorem rejected_update_rerenders_witness :
    demoCtx.user = some alice ∧ demoApp.orm.findById demoCtx.users "1" = some alice ∧
    demoApp.orm.patch demoCtx.users alice (updateData [("firstName", .str "")]) =
      .error { data := some [("firstName", .compound "[minLength]")] } ∧
    (handle demoApp (.update "1" [("firstName", .str "")]) demoCtx).2.users = [alice, bob] ∧
    (handle demoApp (.update "1" [("firstName", .str "")]) demoCtx).1 =
      .render "users/edit"
        [("user", .obj [("firstName", .str ""), ("id", .str "1")]),
          ("errors", .obj [("firstName", .compound "[minLength]")])] :=
  ⟨by decide, by decide, rfl,
    (rejected_update_rerenders demoApp "1" [("firstName", .str "")] demoCtx alice alice
      { data := some [("firstName", .compound "[minLength]")] } (by decide) (by decide)
      (by decide) rfl).1,
    (rejected_update_rerenders demoApp "1" [("firstName", .str "")] demoCtx alice alice
      { data := some [("firstName", .compound "[minLength]")] } (by decide) (by decide)
      (by decide) rfl).2.1⟩

/-- Once the preliminary `$set` has returned, a POST /users request whose
validation or insert fails leaves the table unchanged and renders users/new
again with the submitted data, the data of the error and one error flash; and
the success flash is recorded exactly when validation and insert both
succeed. -/
theorem create_rerenders_after_set (app : App) (data : Obj) (c : Ctx) (user : Obj)
    (hset : app.orm.set data = .ok user) :
    (∀ err, CreateFails app data c err →
      (handle app (.create data) c).2.users = c.users ∧
      (handle app (.create data) c).1 =
        .render "users/new" [("user", .obj data), ("errors", .obj (err.data.getD []))] ∧
      (handle app (.create data) c).1.isRender = true ∧
      (handle app (.create data) c).2.flashes =
        c.flashes ++ [("error", app.t "flash.users.create.error")]) ∧
    ((handle app (.create data) c).2.flashes =
        c.flashes ++ [("info", app.t "flash.users.create.success")] ↔
      ∃ inst users, app.orm.fromJson data = .ok inst ∧
        app.orm.insert c.users inst = .ok users) := by
  constructor
  · intro err hfail
    rcases hfail with h | ⟨inst, h1, h2⟩
    · simp [handle, createUser, createFailed, hset, h, Ctx.flash, Reply.isRender]
    · simp [handle, createUser, createFailed, hset, h1, h2, Ctx.flash, Ctx.issue,
        Reply.isRender]
  · cases h1 : app.orm.fromJson data with
    | error err => simp [handle, createUser, createFailed, hset, h1, Ctx.flash]
    | ok inst =>
      cases h2 : app.orm.insert c.users inst with
      | error err =>
        simp [handle, createUser, createFailed, hset, h1, h2, Ctx.flash, Ctx.issue]
      | ok users => simp [handle, createUser, hset, h1, h2, Ctx.flash, Ctx.issue]

/-- C7, the code at the failing input: a registration whose password is the
number 123. Validation (fromJson) fails for this data, yet the request is not
answered with a render of users/new and no error flash is recorded: the
preliminary `$set`, which stands before the `try`, throws first, the error is
caught by nothing and the answer is the uncaught error with status 500. -/
theorem create_set_throws_uncaught :
    CreateFails demoApp danData demoCtx { data := none } ∧
    (handle demoApp (.create danData) demoCtx).1 = .uncaught { data := none } ∧
    (handle demoApp (.create danData) demoCtx).1.status = 500 ∧
    (handle demoApp (.create danData) demoCtx).1.isRender = false ∧
    (handle demoApp (.create danData) demoCtx).2.flashes = [] ∧
    (handle demoApp (.create danData) demoCtx).2.users = [alice, bob] :=
  ⟨Or.inl rfl, by decide, by decide, by decide, by decide, by decide⟩

/-! ### Plain objects -/

theorem Obj.get_nil (k : String) : Obj.get [] k = none := rfl

theorem Obj.get_cons (k' : String) (v : JsVal) (rest : Obj) (k : String) :
    Obj.get ((k', v) :: rest) k = if k' = k then some v else Obj.get rest k := rfl

theorem Obj.get_set (o : Obj) (k : String) (v : JsVal) (k' : String) :
    (Obj.set o k v).get k' = if k = k' then some v else o.get k' := by
  induction o with
  | nil => simp [Obj.set, Obj.get_cons, Obj.get_nil]
  | cons kv rest ih =>
    obtain ⟨a, b⟩ := kv
    simp only [Obj.set]
    split_ifs <;> simp_all [Obj.get_cons]

theorem Obj.get_eq_none_iff (o : Obj) (k : String) : o.get k = none ↔ k ∉ o.keys := by
  induction o with
  | nil => simp [Obj.get_nil, Obj.keys]
  | cons kv rest ih =>
    obtain ⟨a, b⟩ := kv
    simp only [Obj.keys] at ih
    simp only [Obj.get_cons, Obj.keys, List.map_cons, List.mem_cons, not_or]
    by_cases h : a = k
    · simp [h]
    · have h2 : ¬ k = a := fun h2 => h h2.symm
      simp only [h, h2, if_false, not_false_eq_true, true_and]
      exact ih

theorem Obj.mem_of_get (o : Obj) (k : String) (v : JsVal) (h : o.get k = some v) :
    (k, v) ∈ o := by
  induction o with
  | nil => simp [Obj.get_nil] at h
  | cons kv rest ih =>
    obtain ⟨a, b⟩ := kv
    by_cases h2 : a = k
    · simp [Obj.get_cons, h2] at h
      simp [h2, h]
    · simp [Obj.get_cons, h2] at h
      exact List.mem_cons_of_mem _ (ih h)

theorem Obj.erase_cons (a : String) (b : JsVal) (rest : Obj) (k : String) :
    Obj.erase ((a, b) :: rest) k = if a = k then Obj.erase rest k else (a, b) :: Obj.erase rest k := by
  by_cases h : a = k <;> simp [Obj.erase, List.filter_cons, h]

theorem Obj.get_erase_self (o : Obj) (k : String) : (o.erase k).get k = none := by
  rw [Obj.get_eq_none_iff]
  simp [Obj.erase, Obj.keys, List.mem_filter]

theorem Obj.get_erase_ne (o : Obj) (k k' : String) (h : k' ≠ k) :
    (o.erase k).get k' = o.get k' := by
  induction o with
  | nil => rfl
  | cons kv rest ih =>
    obtain ⟨a, b⟩ := kv
    rw [Obj.erase_cons]
    by_cases h2 : a = k
    · subst h2
      have h3 : ¬ a = k' := fun h3 => h h3.symm
      simp [Obj.get_cons, h3, ih]
    · simp [h2, Obj.get_cons, ih]

theorem Obj.keys_erase_nodup (o : Obj) (k : String) (h : o.keys.Nodup) :
    (o.erase k).keys.Nodup := by
  unfold Obj.keys Obj.erase at *
  exact (List.filter_sublist o).map Prod.fst |>.nodup h

theorem Obj.keys_set (o : Obj) (k : String) (v : JsVal) :
    (Obj.set o k v).keys = if k ∈ o.keys then o.keys else o.keys ++ [k] := by
  induction o with
  | nil => simp [Obj.set, Obj.keys]
  | cons kv rest ih =>
    obtain ⟨a, b⟩ := kv
    simp only [Obj.keys] at ih
    by_cases h : a = k
    · subst h
      simp [Obj.set, Obj.keys]
    · have h2 : ¬ k = a := fun h2 => h h2.symm
      by_cases h3 : k ∈ List.map Prod.fst rest
      · simp [Obj.set, Obj.keys, h, h2, ih, h3]
      · simp [Obj.set, Obj.keys, h, h2, ih, h3]

theorem Obj.keys_set_nodup (o : Obj) (k : String) (v : JsVal) (h : o.keys.Nodup) :
    (Obj.set o k v).keys.Nodup := by
  rw [Obj.keys_set]
  split
  · exact h
  · next hk =>
    rw [List.nodup_append]
    refine ⟨h, List.nodup_singleton k, ?_⟩
    intro a ha hb
    simp at hb
    subst hb
    exact hk ha

theorem Obj.assign_cons (base : Obj) (kv : String × JsVal) (s : Obj) :
    Obj.assign base (kv :: s) = Obj.assign (Obj.set base kv.1 kv.2) s := rfl

theorem Obj.assign_append (base s1 s2 : Obj) :
    Obj.assign base (s1 ++ s2) = Obj.assign (Obj.assign base s1) s2 := by
  simp [Obj.assign, List.foldl_append]

theorem Obj.keys_assign_nodup (base s : Obj) (h : base.keys.Nodup) :
    (Obj.assign base s).keys.Nodup := by
  induction s generalizing base with
  | nil => exact h
  | cons kv rest ih =>
    rw [Obj.assign_cons]
    exact ih _ (Obj.keys_set_nodup base kv.1 kv.2 h)

theorem Obj.get_assign_of_not_mem (base s : Obj) (k : String) (h : k ∉ s.keys) :
    (Obj.assign base s).get k = base.get k := by
  induction s generalizing base with
  | nil => rfl
  | cons kv rest ih =>
    simp only [Obj.keys, List.map_cons, List.mem_cons, not_or] at h
    rw [Obj.assign_cons, ih _ (by simpa [Obj.keys] using h.2), Obj.get_set,
      if_neg (fun h2 => h.1 h2.symm)]

theorem Obj.get_assign_last (base s1 s2 : Obj) (k : String) (v : JsVal)
    (h : k ∉ s2.keys) : (Obj.assign base (s1 ++ (k, v) :: s2)).get k = some v := by
  rw [Obj.assign_append, Obj.assign_cons, Obj.get_assign_of_not_mem _ _ _ h, Obj.get_set]
  simp

theorem Obj.not_mem_tail_of_nodup (s1 s2 : Obj) (k : String) (v : JsVal)
    (h : (s1 ++ (k, v) :: s2).keys.Nodup) : k ∉ s2.keys := by
  simp only [Obj.keys, List.map_append, List.map_cons] at h
  have h2 := (List.nodup_append.mp h).2.1
  exact (List.nodup_cons.mp h2).1

theorem Obj.get_assign_of_get (base s : Obj) (k : String) (v : JsVal)
    (hs : s.keys.Nodup) (h : s.get k = some v) : (Obj.assign base s).get k = some v := by
  obtain ⟨s1, s2, hsplit⟩ := List.append_of_mem (Obj.mem_of_get s k v h)
  subst hsplit
  exact Obj.get_assign_last base s1 s2 k v (Obj.not_mem_tail_of_nodup s1 s2 k v hs)

theorem Obj.get_assign_of_get_none (base s : Obj) (k : String)
    (h : s.get k = none) : (Obj.assign base s).get k = base.get k :=
  Obj.get_assign_of_not_mem base s k ((Obj.get_eq_none_iff s k).mp h)

/-! ### The user model -/

theorem UserModel.instanceOf_eq (M : UserModel) (json : Obj) :
    M.instanceOf json = Obj.assign [] (json.map M.column) := by
  simp only [UserModel.instanceOf, Obj.assign, List.foldl_map]
  rfl

theorem UserModel.instanceOf_nodup (M : UserModel) (json : Obj) :
    (M.instanceOf json).keys.Nodup := by
  rw [UserModel.instanceOf_eq]
  exact Obj.keys_assign_nodup [] _ (by simp [Obj.keys])

theorem UserModel.column_fst_ne_password (M : UserModel) (kv : String × JsVal) :
    (M.column kv).1 ≠ "password" := by
  unfold UserModel.column
  split_ifs with h
  · simp
  · exact h

theorem UserModel.column_of_ne (M : UserModel) (kv : String × JsVal)
    (h : kv.1 ≠ "password") : M.column kv = kv := by
  simp [UserModel.column, h]

/-- The instance never has a `password` property. -/
theorem UserModel.instanceOf_get_password (M : UserModel) (json : Obj) :
    (M.instanceOf json).get "password" = none := by
  rw [UserModel.instanceOf_eq, Obj.get_assign_of_not_mem]
  · rfl
  · simp only [Obj.keys, List.map_map, List.mem_map, not_exists, not_and]
    intro kv _ h
    exact M.column_fst_ne_password kv h

theorem UserModel.map_column_keys_not_mem (M : UserModel) (s : Obj) (k : String)
    (hk : k ∉ s.keys) (hpw : k = "passwordDigest" → "password" ∉ s.keys) :
    k ∉ Obj.keys (s.map M.column) := by
  simp only [Obj.keys, List.map_map, List.mem_map, not_exists, not_and, Function.comp] at *
  intro kv hmem h
  by_cases hp : kv.1 = "password"
  · simp [UserModel.column, hp] at h
    exact hpw h.symm kv hmem hp
  · rw [M.column_of_ne kv hp] at h
    exact hk kv hmem h

/-- A submitted property other than `password` and `passwordDigest` is stored
under its own name with its value. -/
theorem UserModel.instanceOf_get_plain (M : UserModel) (json : Obj) (k : String)
    (hnodup : json.keys.Nodup) (h1 : k ≠ "password") (h2 : k ≠ "passwordDigest") :
    (M.instanceOf json).get k = json.get k := by
  rw [UserModel.instanceOf_eq]
  cases hget : json.get k with
  | none =>
    rw [Obj.get_assign_of_not_mem]
    · rfl
    · exact M.map_column_keys_not_mem json k ((Obj.get_eq_none_iff json k).mp hget)
        (fun h => absurd h h2)
  | some v =>
    obtain ⟨s1, s2, hsplit⟩ := List.append_of_mem (Obj.mem_of_get json k v hget)
    subst hsplit
    have htail := Obj.not_mem_tail_of_nodup s1 s2 k v hnodup
    rw [List.map_append, List.map_cons, M.column_of_ne (k, v) h1]
    exact Obj.get_assign_last [] _ _ k v
      (M.map_column_keys_not_mem s2 k htail (fun h => absurd h h2))

/-- Without a submitted `password` the instance is built from the submitted
properties as they are. -/
theorem UserModel.instanceOf_get_of_no_password (M : UserModel) (json : Obj) (k : String)
    (hnodup : json.keys.Nodup) (hpw : json.get "password" = none) :
    (M.instanceOf json).get k = json.get k := by
  have hmap : json.map M.column = json := by
    have hmem := (Obj.get_eq_none_iff json "password").mp hpw
    conv => rhs; rw [← List.map_id json]
    apply List.map_congr_left
    intro kv hkv
    apply M.column_of_ne
    intro h
    exact hmem (by simpa [Obj.keys] using ⟨kv.2, by rw [← h]; exact hkv⟩)
  rw [UserModel.instanceOf_eq, hmap]
  cases hget : json.get k with
  | none => rw [Obj.get_assign_of_get_none _ _ _ hget]; rfl
  | some v => exact Obj.get_assign_of_get [] json k v hnodup hget

/-- A submitted `password`, when no `passwordDigest` is submitted with it, is
stored as its digest. -/
theorem UserModel.instanceOf_get_digest (M : UserModel) (json : Obj) (p : JsVal)
    (hnodup : json.keys.Nodup) (hpw : json.get "password" = some p)
    (hdig : json.get "passwordDigest" = none) :
    (M.instanceOf json).get "passwordDigest" = some (.str (M.encrypt p)) := by
  rw [UserModel.instanceOf_eq]
  obtain ⟨s1, s2, hsplit⟩ := List.append_of_mem (Obj.mem_of_get json _ p hpw)
  subst hsplit
  have htail := Obj.not_mem_tail_of_nodup s1 s2 _ p hnodup
  have hdig2 : "passwordDigest" ∉ Obj.keys s2 := by
    have := (Obj.get_eq_none_iff _ _).mp hdig
    simp only [Obj.keys, List.map_append, List.map_cons, List.mem_append, List.mem_cons,
      not_or] at this
    exact this.2.2
  rw [List.map_append, List.map_cons]
  have hcol : M.column ("password", p) = ("passwordDigest", .str (M.encrypt p)) := by
    simp [UserModel.column]
  rw [hcol]
  exact Obj.get_assign_last [] _ _ _ _
    (M.map_column_keys_not_mem s2 _ hdig2 (fun _ => htail))

/-- What a patch leaves in a column the instance has a value for. -/
theorem UserModel.patchRow_get_of_some (M : UserModel) (data row : Obj) (k : String)
    (v : JsVal) (h : (M.instanceOf data).get k = some v) :
    (M.patchRow data row).get k = some v :=
  Obj.get_assign_of_get row _ k v (M.instanceOf_nodup data) h

/-- A patch leaves a column the instance has no value for as it was. -/
theorem UserModel.patchRow_get_of_none (M : UserModel) (data row : Obj) (k : String)
    (h : (M.instanceOf data).get k = none) :
    (M.patchRow data row).get k = row.get k :=
  Obj.get_assign_of_get_none row _ k h

/-! ### The reference ORM -/

/-- A number is strictly equal to itself. -/
theorem strictEq_num (n : Int) : strictEq (some (.num n)) (some (.num n)) = true := by
  simp [strictEq]

/-- A record found by id is a row of the table whose key is the one `:id`
denotes. -/
theorem userOrm_findById_some (M : UserModel) (t : Table) (id : String) (user : Obj)
    (h : (userOrm M).findById t id = some user) :
    user ∈ t ∧ ∃ n, M.coerceId id = some n ∧ user.get "id" = some (.num n) := by
  simp only [userOrm] at h
  cases hc : M.coerceId id with
  | none => simp [hc] at h
  | some n =>
    simp only [hc] at h
    refine ⟨List.mem_of_find?_eq_some h, n, rfl, ?_⟩
    simpa using List.find?_some h

/-- The row filter of an instance query, for an instance that has a key. -/
theorem sameId_eq (user row : Obj) (v : JsVal) (h : user.get "id" = some v) :
    sameId user row = decide (row.get "id" = user.get "id") := by
  simp [sameId, h]

/-- A filter keeps or drops each row in place. -/
theorem filter_eq_filterMap (p : Obj → Bool) (t : Table) :
    t.filter p = t.filterMap (fun row => if p row then some row else none) := by
  induction t with
  | nil => rfl
  | cons row rest ih =>
    by_cases h : p row <;> simp [List.filter_cons, List.filterMap_cons, h, ih]

/-- A patch differs from the table before only at the rows of the instance. -/
theorem onlyDiffersAt_patch (M : UserModel) (t : Table) (user data : Obj) :
    OnlyDiffersAt (user.get "id") t
      (t.map (fun row => if sameId user row then M.patchRow data row else row)) := by
  refine ⟨fun row => some (if sameId user row then M.patchRow data row else row), ?_, ?_⟩
  · induction t with
    | nil => rfl
    | cons row rest ih => simp [List.filterMap_cons, ih]
  · intro row hrow
    have : sameId user row = false := by
      unfold sameId
      split
      · next v hv => simpa [hv] using hrow
      · rfl
    simp [this]

/-- A delete differs from the table before only at the rows of the instance. -/
theorem onlyDiffersAt_delete (t : Table) (user : Obj) :
    OnlyDiffersAt (user.get "id") t (t.filter (fun row => !(sameId user row))) := by
  refine ⟨fun row => if !(sameId user row) then some row else none, ?_, ?_⟩
  · exact filter_eq_filterMap _ t
  · intro row hrow
    have : sameId user row = false := by
      unfold sameId
      split
      · next v hv => simpa [hv] using hrow
      · rfl
    simp [this]

/-- C1: for every PATCH /users/:id or DELETE /users/:id request and every state
of the users table, if the table after the handler differs from the table
before, then the authenticated requester's id equals the id of the record
addressed by :id and the table differs only at that record; in particular a
request whose :id names no record, or names the record of another user, leaves
the table unchanged. -/
theorem mutation_only_by_owner (M : UserModel) (t : String → String) (req : Request)
    (id : String) (data : Obj) (c : Ctx)
    (hreq : req = .update id data ∨ req = .destroy id) :
    ((handle ⟨userOrm M, t⟩ req c).2.users ≠ c.users →
      ∃ reqUser user, c.user = some reqUser ∧
        (userOrm M).findById c.users id = some user ∧
        reqUser.get "id" = user.get "id" ∧
        OnlyDiffersAt (user.get "id") c.users (handle ⟨userOrm M, t⟩ req c).2.users) ∧
    ((userOrm M).findById c.users id = none →
      (handle ⟨userOrm M, t⟩ req c).2.users = c.users) ∧
    (∀ reqUser user, c.user = some reqUser →
      (userOrm M).findById c.users id = some user →
      reqUser.get "id" ≠ user.get "id" →
      (handle ⟨userOrm M, t⟩ req c).2.users = c.users) := by
  refine ⟨?_, ?_, ?_⟩
  · intro hchanged
    cases hu : c.user with
    | none =>
      exfalso
      apply hchanged
      rcases hreq with h | h <;> subst h <;> simp [handle, authenticate, hu]
    | some reqUser =>
      cases hf : (userOrm M).findById c.users id with
      | none =>
        exfalso
        apply hchanged
        rcases hreq with h | h <;> subst h <;>
          simp [handle, authenticate, hu, updateUser, deleteUser, Ctx.issue, hf]
      | some user =>
        cases hs : strictEq (reqUser.get "id") (user.get "id") with
        | false =>
          exfalso
          apply hchanged
          rcases hreq with h | h <;> subst h <;>
            simp [handle, authenticate, hu, updateUser, deleteUser, Ctx.issue, Ctx.flash,
              hf, hs]
        | true =>
          refine ⟨reqUser, user, rfl, rfl, strictEq_eq hs, ?_⟩
          rcases hreq with h | h <;> subst h
          · cases hp : M.patchCheck c.users user (updateData data) with
            | some err =>
              exfalso
              apply hchanged
              have hq : (userOrm M).patch c.users user (updateData data) = .error err := by
                simp [userOrm, hp]
              simp [handle, authenticate, hu, updateUser, Ctx.issue, Ctx.flash, hf, hs, hq]
            | none =>
              have hq : (userOrm M).patch c.users user (updateData data) = .ok
                  (c.users.map (fun row =>
                    if sameId user row then M.patchRow (updateData data) row else row)) := by
                simp [userOrm, hp]
              simp only [handle, authenticate, hu, updateUser, Ctx.issue, Ctx.flash, hf, hs,
                hq, Bool.not_true, Bool.false_eq_true, if_false]
              exact onlyDiffersAt_patch M c.users user (updateData data)
          · cases hp : M.deleteCheck c.users user with
            | some err =>
              exfalso
              apply hchanged
              have hq : (userOrm M).delete c.users user = .error err := by
                simp [userOrm, hp]
              simp [handle, authenticate, hu, deleteUser, Ctx.issue, Ctx.flash, hf, hs, hq]
            | none =>
              have hq : (userOrm M).delete c.users user = .ok
                  (c.users.filter (fun row => !(sameId user row))) := by
                simp [userOrm, hp]
              simp only [handle, authenticate, hu, deleteUser, Ctx.issue, Ctx.flash,
                Ctx.logOut, hf, hs, hq, Bool.not_true, Bool.false_eq_true, if_false]
              exact onlyDiffersAt_delete c.users user
  · intro hf
    cases hu : c.user with
    | none => rcases hreq with h | h <;> subst h <;> simp [handle, authenticate, hu]
    | some reqUser =>
      rcases hreq with h | h <;> subst h <;>
        simp [handle, authenticate, hu, updateUser, deleteUser, Ctx.issue, hf]
  · intro reqUser user hu hf hne
    have hs := strictEq_false_of_ne hne
    rcases hreq with h | h <;> subst h <;>
      simp [handle, authenticate, hu, updateUser, deleteUser, Ctx.issue, Ctx.flash, hf, hs]

/-- C1, witness: the first demo user changes their own first name. -/
theorem mutation_only_by_owner_witness :
    (handle demoApp (.update "1" [("firstName", .str "New")]) demoCtx).2.users ≠
      demoCtx.users ∧
    ∃ reqUser user, demoCtx.user = some reqUser ∧
      (userOrm demoModel).findById demoCtx.users "1" = some user ∧
      reqUser.get "id" = user.get "id" ∧
      OnlyDiffersAt (user.get "id") demoCtx.users
        (handle ⟨userOrm demoModel, translate en⟩
          (.update "1" [("firstName", .str "New")]) demoCtx).2.users :=
  ⟨by decide,
    (mutation_only_by_owner demoModel (translate en)
      (.update "1" [("firstName", .str "New")]) "1" [("firstName", .str "New")] demoCtx
      (Or.inl rfl)).1 (by decide)⟩

/-- C3: when an authenticated user sends DELETE /users/:id with :id equal to
their own id and the delete query succeeds, the record with that id is no
longer in the users table, every other record is unchanged, the requester is
logged out (the session no longer carries a user, so a following
GET /users/:id/edit on the resulting state is redirected to /session/new), and
the answer is a redirect (302) to the root route /. -/
theorem own_delete_removes_and_logs_out (M : UserModel) (t : String → String)
    (id : String) (c : Ctx) (reqUser user : Obj)
    (hlogged : c.user = some reqUser)
    (hfound : (userOrm M).findById c.users id = some user)
    (hown : reqUser.get "id" = user.get "id")
    (haccepted : M.deleteCheck c.users user = none) :
    (handle ⟨userOrm M, t⟩ (.destroy id) c).1 = .redirect "/" ∧
    (handle ⟨userOrm M, t⟩ (.destroy id) c).1.status = 302 ∧
    (userOrm M).findById (handle ⟨userOrm M, t⟩ (.destroy id) c).2.users id = none ∧
    (∀ row ∈ (handle ⟨userOrm M, t⟩ (.destroy id) c).2.users,
      row.get "id" ≠ user.get "id") ∧
    (handle ⟨userOrm M, t⟩ (.destroy id) c).2.users =
      c.users.filter (fun row => decide (row.get "id" ≠ user.get "id")) ∧
    (handle ⟨userOrm M, t⟩ (.destroy id) c).2.user = none ∧
    (handle ⟨userOrm M, t⟩ (.edit id)
      (handle ⟨userOrm M, t⟩ (.destroy id) c).2).1 = .redirect "/session/new" ∧
    (handle ⟨userOrm M, t⟩ (.destroy id) c).2.flashes =
      c.flashes ++ [("info", t "flash.users.delete.success")] := by
  obtain ⟨_, n, hn, hid⟩ := userOrm_findById_some M c.users id user hfound
  have hs : strictEq (reqUser.get "id") (user.get "id") = true := by
    rw [hown, hid]
    exact strictEq_num n
  have hfilter : (fun row : Obj => !(sameId user row)) =
      (fun row : Obj => decide (row.get "id" ≠ user.get "id")) := by
    funext row
    rw [sameId_eq user row _ hid]
    simp
  have hq : (userOrm M).delete c.users user = .ok
      (c.users.filter (fun row => decide (row.get "id" ≠ user.get "id"))) := by
    simp only [userOrm, haccepted, hfilter]
  have hrun : handle ⟨userOrm M, t⟩ (.destroy id) c =
      (.redirect "/",
        { users := c.users.filter (fun row => decide (row.get "id" ≠ user.get "id")),
          user := none,
          flashes := c.flashes ++ [("info", t "flash.users.delete.success")],
          queries := c.queries ++ [.findById id, .delete user] }) := by
    simp [handle, authenticate, hlogged, deleteUser, Ctx.issue, Ctx.flash, Ctx.logOut,
      hfound, hs, hq, reverse_root]
  rw [hrun]
  refine ⟨rfl, rfl, ?_, ?_, rfl, rfl, ?_, rfl⟩
  · simp only [userOrm, hn]
    rw [List.find?_eq_none]
    intro row hrow
    have := (List.mem_filter.mp hrow).2
    simpa [hid] using this
  · intro row hrow
    simpa using (List.mem_filter.mp hrow).2
  · simp [handle, authenticate]

/-- C3, witness: the first demo user deletes their own record. -/
theorem own_delete_removes_and_logs_out_witness :
    demoCtx.user = some alice ∧
    (userOrm demoModel).findById demoCtx.users "1" = some alice ∧
    demoModel.deleteCheck demoCtx.users alice = none ∧
    (handle demoApp (.destroy "1") demoCtx).2.users = [bob] ∧
    (handle demoApp (.destroy "1") demoCtx).2.user = none :=
  ⟨by decide, by decide, by decide,
    (own_delete_removes_and_logs_out demoModel (translate en) "1" demoCtx alice alice
      (by decide) (by decide) rfl (by decide)).2.2.2.2.1,
    (own_delete_removes_and_logs_out demoModel (translate en) "1" demoCtx alice alice
      (by decide) (by decide) rfl (by decide)).2.2.2.2.2.1⟩

/-- The object handed to the patch query has no falsy `password`. -/
theorem updateData_of_falsy (data : Obj) (h : falsy (data.get "password") = true) :
    updateData data = data.erase "password" := by
  simp [updateData, h]

/-- The object handed to the patch query keeps a truthy `password`. -/
theorem updateData_of_truthy (data : Obj) (h : falsy (data.get "password") = false) :
    updateData data = data := by
  simp [updateData, h]

/-- C4, counterexample: the first demo user patches their own record, once
with a new first name and a new password and once with a new first name and an
empty password. Both updates are accepted. In neither does the stored record
carry the submitted value of `password`, and in the first the stored
`passwordDigest`, a field that was not submitted, has changed. -/
theorem own_update_counterexample :
    demoCtx.user = some alice ∧
    (userOrm demoModel).findById demoCtx.users "1" = some alice ∧
    (handle demoApp (.update "1" [("firstName", .str "New"), ("password", .str "secret")])
      demoCtx).1 = .redirect "/users" ∧
    ¬ (∀ kv ∈ [("firstName", JsVal.str "New"), ("password", JsVal.str "secret")],
      ((userOrm demoModel).findById
        (handle demoApp
          (.update "1" [("firstName", .str "New"), ("password", .str "secret")])
          demoCtx).2.users "1").bind (fun row => row.get kv.1) = some kv.2) ∧
    Obj.get [("firstName", JsVal.str "New"), ("password", JsVal.str "secret")]
      "passwordDigest" = none ∧
    ((userOrm demoModel).findById
      (handle demoApp (.update "1" [("firstName", .str "New"), ("password", .str "secret")])
        demoCtx).2.users "1").bind (fun row => row.get "passwordDigest") ≠
      alice.get "passwordDigest" ∧
    (handle demoApp (.update "1" [("firstName", .str "New"), ("password", .str "")])
      demoCtx).1 = .redirect "/users" ∧
    ¬ (∀ kv ∈ [("firstName", JsVal.str "New"), ("password", JsVal.str "")],
      ((userOrm demoModel).findById
        (handle demoApp (.update "1" [("firstName", .str "New"), ("password", .str "")])
          demoCtx).2.users "1").bind (fun row => row.get kv.1) = some kv.2) := by
  decide

/-- C4, amended: when an authenticated user sends PATCH /users/:id with :id
equal to their own id and body data that the patch query accepts (once a falsy
password is dropped), the answer is a redirect (302) to /users, exactly one
flash is recorded, of type info with the text of flash.users.update.success,
every record with another id is unchanged, and the record with that id is
rewritten so that: it carries the new value of each submitted field other than
password (and other than passwordDigest when a truthy password is submitted
with it); a truthy password submitted without a passwordDigest is stored as
passwordDigest = encrypt(password); password itself is never written; and a
field not present in the submitted data is unchanged (passwordDigest when no
truthy password is submitted). -/
theorem own_update_stores (M : UserModel) (t : String → String) (id : String)
    (data : Obj) (c : Ctx) (reqUser user : Obj)
    (hlogged : c.user = some reqUser)
    (hfound : (userOrm M).findById c.users id = some user)
    (hown : reqUser.get "id" = user.get "id")
    (hnodup : data.keys.Nodup)
    (haccepted : M.patchCheck c.users user (updateData data) = none) :
    (handle ⟨userOrm M, t⟩ (.update id data) c).1 = .redirect "/users" ∧
    (handle ⟨userOrm M, t⟩ (.update id data) c).1.status = 302 ∧
    (handle ⟨userOrm M, t⟩ (.update id data) c).2.flashes =
      c.flashes ++ [("info", t "flash.users.update.success")] ∧
    (handle ⟨userOrm M, t⟩ (.update id data) c).2.users =
      c.users.map (fun row =>
        if row.get "id" = user.get "id" then M.patchRow (updateData data) row else row) ∧
    (∀ row k v, k ≠ "password" →
      (k = "passwordDigest" → falsy (data.get "password") = true) →
      data.get k = some v → (M.patchRow (updateData data) row).get k = some v) ∧
    (∀ row p, data.get "password" = some p → falsy (some p) = false →
      data.get "passwordDigest" = none →
      (M.patchRow (updateData data) row).get "passwordDigest" =
        some (.str (M.encrypt p))) ∧
    (∀ row, (M.patchRow (updateData data) row).get "password" = row.get "password") ∧
    (∀ row k, data.get k = none →
      (k = "passwordDigest" → falsy (data.get "password") = true) →
      (M.patchRow (updateData data) row).get k = row.get k) := by
  obtain ⟨_, n, _, hid⟩ := userOrm_findById_some M c.users id user hfound
  have hs : strictEq (reqUser.get "id") (user.get "id") = true := by
    rw [hown, hid]
    exact strictEq_num n
  have hrows : (fun row : Obj =>
        if sameId user row then M.patchRow (updateData data) row else row) =
      (fun row : Obj =>
        if row.get "id" = user.get "id" then M.patchRow (updateData data) row
        else row) := by
    funext row
    rw [sameId_eq user row _ hid]
    simp
  have hq : (userOrm M).patch c.users user (updateData data) = .ok
      (c.users.map (fun row =>
        if row.get "id" = user.get "id" then M.patchRow (updateData data) row
        else row)) := by
    simp only [userOrm, haccepted, hrows]
  have hinst : ∀ k, k ≠ "password" →
      (k = "passwordDigest" → falsy (data.get "password") = true) →
      (M.instanceOf (updateData data)).get k = data.get k := by
    intro k hk hdig
    cases hf : falsy (data.get "password") with
    | true =>
      rw [updateData_of_falsy data hf,
        M.instanceOf_get_of_no_password _ k (Obj.keys_erase_nodup data _ hnodup)
          (Obj.get_erase_self data _),
        Obj.get_erase_ne data _ k hk]
    | false =>
      rw [updateData_of_truthy data hf]
      refine M.instanceOf_get_plain data k hnodup hk ?_
      intro h
      rw [hdig h] at hf
      exact Bool.noConfusion hf
  refine ⟨?_, ?_, ?_, ?_, ?_, ?_, ?_, ?_⟩
  · simp [handle, authenticate, hlogged, updateUser, Ctx.issue, Ctx.flash, hfound, hs, hq,
      reverse_users]
  · simp [handle, authenticate, hlogged, updateUser, Ctx.issue, Ctx.flash, hfound, hs, hq,
      Reply.status]
  · simp [handle, authenticate, hlogged, updateUser, Ctx.issue, Ctx.flash, hfound, hs, hq]
  · simp [handle, authenticate, hlogged, updateUser, Ctx.issue, Ctx.flash, hfound, hs, hq]
  · intro row k v hk hdig hget
    exact M.patchRow_get_of_some _ row k v ((hinst k hk hdig).trans hget)
  · intro row p hp hf hdig
    rw [← hp] at hf
    rw [updateData_of_truthy data hf]
    exact M.patchRow_get_of_some _ row _ _ (M.instanceOf_get_digest data p hnodup hp hdig)
  · intro row
    exact M.patchRow_get_of_none _ row _ (M.instanceOf_get_password _)
  · intro row k hget hdig
    by_cases hk : k = "password"
    · subst hk
      exact M.patchRow_get_of_none _ row _ (M.instanceOf_get_password _)
    · exact M.patchRow_get_of_none _ row k ((hinst k hk hdig).trans hget)

/-- C4, witness: the first demo user patches their own record with an empty
password. -/
theorem own_update_stores_witness :
    demoCtx.user = some alice ∧
    (userOrm demoModel).findById demoCtx.users "1" = some alice ∧
    demoModel.patchCheck demoCtx.users alice
      (updateData [("firstName", .str "New"), ("password", .str "")]) = none ∧
    (handle demoApp (.update "1" [("firstName", .str "New"), ("password", .str "")])
      demoCtx).1 = .redirect "/users" ∧
    (handle demoApp (.update "1" [("firstName", .str "New"), ("password", .str "")])
      demoCtx).2.flashes = [("info", "User changed")] :=
  ⟨by decide, by decide, by decide,
    (own_update_stores demoModel (translate en) "1"
      [("firstName", .str "New"), ("password", .str "")] demoCtx alice alice
      (by decide) (by decide) rfl (by decide) (by decide)).1,
    (own_update_stores demoModel (translate en) "1"
      [("firstName", .str "New"), ("password", .str "")] demoCtx alice alice
      (by decide) (by decide) rfl (by decide) (by decide)).2.2.1⟩

/-- Without a `password` and without a `passwordDigest` among the properties,
the instance has no `passwordDigest`. -/
theorem UserModel.instanceOf_get_digest_none (M : UserModel) (json : Obj)
    (hpw : json.get "password" = none) (hdig : json.get "passwordDigest" = none) :
    (M.instanceOf json).get "passwordDigest" = none := by
  rw [UserModel.instanceOf_eq, Obj.get_assign_of_not_mem]
  · rfl
  · exact M.map_column_keys_not_mem json _ ((Obj.get_eq_none_iff _ _).mp hdig)
      (fun _ => (Obj.get_eq_none_iff _ _).mp hpw)

/-- C9, counterexample: the first demo user patches their own record with an
empty password and a `passwordDigest` of their choosing; the update is
accepted and the stored `passwordDigest` is no longer the one stored before. -/
theorem empty_password_counterexample :
    demoCtx.user = some alice ∧
    (userOrm demoModel).findById demoCtx.users "1" = some alice ∧
    falsy (Obj.get [("password", JsVal.str ""), ("passwordDigest", JsVal.str "x")]
      "password") = true ∧
    (handle demoApp (.update "1" [("password", .str ""), ("passwordDigest", .str "x")])
      demoCtx).1 = .redirect "/users" ∧
    ((userOrm demoModel).findById
      (handle demoApp (.update "1" [("password", .str ""), ("passwordDigest", .str "x")])
        demoCtx).2.users "1").bind (fun row => row.get "passwordDigest") ≠
      alice.get "passwordDigest" := by
  decide

/-- C9, amended: in the PATCH /users/:id handler, for every submitted body
data d of an own-profile update, the object passed to the patch query is d
with the password key removed when d.password is absent or falsy (for example
the empty string), and d unchanged otherwise; hence an update submitted with
an empty password field never writes a password, and it leaves the stored
passwordDigest unchanged when d carries no passwordDigest field of its own;
and the submitted data object itself is not mutated: after a rejected patch
the form is rendered again from d as it was submitted, password included. -/
theorem empty_password_not_written (M : UserModel) (t : String → String) (id : String)
    (data : Obj) (c : Ctx) (reqUser user : Obj)
    (hlogged : c.user = some reqUser)
    (hfound : (userOrm M).findById c.users id = some user)
    (hown : reqUser.get "id" = user.get "id") :
    (handle ⟨userOrm M, t⟩ (.update id data) c).2.queries =
      c.queries ++ [.findById id,
        .patch user (if falsy (data.get "password") = true then data.erase "password"
          else data)] ∧
    (falsy (data.get "password") = true →
      (updateData data).get "password" = none ∧
      (∀ k, k ≠ "password" → (updateData data).get k = data.get k) ∧
      (M.patchCheck c.users user (updateData data) = none →
        (handle ⟨userOrm M, t⟩ (.update id data) c).2.users =
          c.users.map (fun row =>
            if row.get "id" = user.get "id" then M.patchRow (updateData data) row
            else row) ∧
        ∀ row, (M.patchRow (updateData data) row).get "password" = row.get "password" ∧
          (data.get "passwordDigest" = none →
            (M.patchRow (updateData data) row).get "passwordDigest" =
              row.get "passwordDigest"))) ∧
    (falsy (data.get "password") = false → updateData data = data) ∧
    (∀ err, M.patchCheck c.users user (updateData data) = some err →
      (handle ⟨userOrm M, t⟩ (.update id data) c).1 =
        .render "users/edit"
          [("user", .obj (Obj.set data "id" (.str id))), ("errors", .obj (err.data.getD []))] ∧
      (Obj.set data "id" (.str id)).get "password" = data.get "password") := by
  obtain ⟨_, n, _, hid⟩ := userOrm_findById_some M c.users id user hfound
  have hs : strictEq (reqUser.get "id") (user.get "id") = true := by
    rw [hown, hid]
    exact strictEq_num n
  have hrows : (fun row : Obj =>
        if sameId user row then M.patchRow (updateData data) row else row) =
      (fun row : Obj =>
        if row.get "id" = user.get "id" then M.patchRow (updateData data) row
        else row) := by
    funext row
    rw [sameId_eq user row _ hid]
    simp
  refine ⟨?_, ?_, updateData_of_truthy data, ?_⟩
  · rw [show (if falsy (data.get "password") = true then data.erase "password" else data) =
      updateData data from rfl]
    cases hp : M.patchCheck c.users user (updateData data) with
    | none =>
      have hq : (userOrm M).patch c.users user (updateData data) = .ok
          (c.users.map (fun row =>
            if sameId user row then M.patchRow (updateData data) row else row)) := by
        simp [userOrm, hp]
      simp [handle, authenticate, hlogged, updateUser, Ctx.issue, Ctx.flash, hfound, hs,
        hq]
    | some err =>
      have hq : (userOrm M).patch c.users user (updateData data) = .error err := by
        simp [userOrm, hp]
      simp [handle, authenticate, hlogged, updateUser, Ctx.issue, Ctx.flash, hfound, hs,
        hq]
  · intro hf
    rw [updateData_of_falsy data hf]
    refine ⟨Obj.get_erase_self data _, fun k hk => Obj.get_erase_ne data _ k hk, ?_⟩
    intro hp
    rw [← updateData_of_falsy data hf] at hp ⊢
    have hq : (userOrm M).patch c.users user (updateData data) = .ok
        (c.users.map (fun row =>
          if row.get "id" = user.get "id" then M.patchRow (updateData data) row
          else row)) := by
      simp only [userOrm, hp, hrows]
    refine ⟨?_, fun row => ⟨?_, ?_⟩⟩
    · simp [handle, authenticate, hlogged, updateUser, Ctx.issue, Ctx.flash, hfound, hs,
        hq]
    · exact M.patchRow_get_of_none _ row _ (M.instanceOf_get_password _)
    · intro hdig
      apply M.patchRow_get_of_none
      rw [updateData_of_falsy data hf]
      apply M.instanceOf_get_digest_none
      · exact Obj.get_erase_self data _
      · rw [Obj.get_erase_ne data _ _ (by decide)]
        exact hdig
  · intro err hp
    have hq : (userOrm M).patch c.users user (updateData data) = .error err := by
      simp [userOrm, hp]
    refine ⟨?_, ?_⟩
    · simp [handle, authenticate, hlogged, updateUser, Ctx.issue, Ctx.flash, hfound, hs, hq]
    · rw [Obj.get_set]
      simp

/-- C9, witness: the first demo user patches their own record with an empty
password. -/
theorem empty_password_not_written_witness :
    demoCtx.user = some alice ∧
    (userOrm demoModel).findById demoCtx.users "1" = some alice ∧
    (handle demoApp (.update "1" [("firstName", .str "New"), ("password", .str "")])
      demoCtx).2.queries =
      [.findById "1", .patch alice [("firstName", .str "New")]] :=
  ⟨by decide, by decide,
    (empty_password_not_written demoModel (translate en) "1"
      [("firstName", .str "New"), ("password", .str "")] demoCtx alice alice
      (by decide) (by decide) rfl).1⟩

/-- A column the instance has a value for is in the inserted row. -/
theorem UserModel.newRow_get_of_some (M : UserModel) (t : Table) (inst : Obj) (k : String)
    (v : JsVal) (h : inst.get k = some v) : (M.newRow t inst).get k = some v := by
  unfold UserModel.newRow
  split_ifs with hid
  · exact h
  · rw [Obj.get_cons]
    split_ifs with hk
    · subst hk
      simp [h] at hid
    · exact h

/-- C6: for every POST /users request whose body data (with an email and a
password, such as the fields firstName, lastName, email, password) is valid
and accepted by the insert query, and whose email is not yet in the table, the
answer has status 302, a redirect to the root route, and afterwards the users
table is the table before followed by one new record: the record found by that
email, whose fields are the submitted data without password and with
passwordDigest = encrypt(password); no previously stored record is changed. -/
theorem create_stores_record (M : UserModel) (t : String → String) (data : Obj) (c : Ctx)
    (email password : JsVal)
    (hnodup : data.keys.Nodup)
    (hemail : data.get "email" = some email)
    (hpassword : data.get "password" = some password)
    (hdigest : data.get "passwordDigest" = none)
    (hvalid : M.validate data = none)
    (haccepted : M.insertCheck c.users (M.instanceOf data) = none)
    (hfresh : ∀ row ∈ c.users, row.get "email" ≠ some email) :
    (handle ⟨userOrm M, t⟩ (.create data) c).1 = .redirect "/" ∧
    (handle ⟨userOrm M, t⟩ (.create data) c).1.status = 302 ∧
    ∃ row, (handle ⟨userOrm M, t⟩ (.create data) c).2.users = c.users ++ [row] ∧
      findOneByEmail (handle ⟨userOrm M, t⟩ (.create data) c).2.users email = some row ∧
      (∀ k v, k ≠ "password" → data.get k = some v → row.get k = some v) ∧
      row.get "passwordDigest" = some (.str (M.encrypt password)) ∧
      row.get "password" = none := by
  have h0 : (userOrm M).set data = .ok (M.instanceOf data) := by
    simp [userOrm, M.coherent data hvalid]
  have h1 : (userOrm M).fromJson data = .ok (M.instanceOf data) := by
    simp [userOrm, hvalid]
  have h2 : (userOrm M).insert c.users (M.instanceOf data) =
      .ok (c.users ++ [M.newRow c.users (M.instanceOf data)]) := by
    simp [userOrm, haccepted]
  have hplain : ∀ k v, k ≠ "password" → data.get k = some v →
      (M.newRow c.users (M.instanceOf data)).get k = some v := by
    intro k v hk hget
    apply M.newRow_get_of_some
    rw [M.instanceOf_get_plain data k hnodup hk, hget]
    intro hd
    rw [hd, hdigest] at hget
    exact Option.noConfusion hget
  refine ⟨?_, ?_, M.newRow c.users (M.instanceOf data), ?_, ?_, hplain, ?_, ?_⟩
  · simp [handle, createUser, h0, h1, h2, reverse_root]
  · simp [handle, createUser, h0, h1, h2, Reply.status]
  · simp [handle, createUser, h0, h1, h2, Ctx.issue, Ctx.flash]
  · have hrun : (handle ⟨userOrm M, t⟩ (.create data) c).2.users =
        c.users ++ [M.newRow c.users (M.instanceOf data)] := by
      simp [handle, createUser, h0, h1, h2, Ctx.issue, Ctx.flash]
    rw [hrun, findOneByEmail, List.find?_append]
    have hnone : List.find? (fun row : Obj => decide (row.get "email" = some email))
        c.users = none := by
      rw [List.find?_eq_none]
      intro row hrow
      simpa using hfresh row hrow
    rw [hnone]
    simp [hplain "email" email (by decide) hemail]
  · exact M.newRow_get_of_some _ _ _ _
      (M.instanceOf_get_digest data password hnodup hpassword hdigest)
  · unfold UserModel.newRow
    split_ifs
    · exact M.instanceOf_get_password data
    · rw [Obj.get_cons, if_neg (by decide)]
      exact M.instanceOf_get_password data

/-- C6, witness: a third user registers in the demo world. -/
theorem create_stores_record_witness :
    carolData.keys.Nodup ∧
    demoModel.validate carolData = none ∧
    demoModel.insertCheck demoCtx.users (demoModel.instanceOf carolData) = none ∧
    (∀ row ∈ demoCtx.users, row.get "email" ≠ some (.str "carol@example.com")) ∧
    (handle demoApp (.create carolData) demoCtx).1 = .redirect "/" ∧
    (handle demoApp (.create carolData) demoCtx).1.status = 302 :=
  ⟨by decide, by decide, by decide, by decide,
    (create_stores_record demoModel (translate en) carolData demoCtx
      (.str "carol@example.com") (.str "carolpw") (by decide) (by decide) (by decide)
      (by decide) (by decide) (by decide) (by decide)).1,
    (create_stores_record demoModel (translate en) carolData demoCtx
      (.str "carol@example.com") (.str "carolpw") (by decide) (by decide) (by decide)
      (by decide) (by decide) (by decide) (by decide)).2.1⟩

/-- C10, the code at the failing input: the English table has a text for the
five create, update and notAllowed keys of the users handlers and none for
flash.users.delete.success and flash.users.delete.error, so the flash message
recorded by a DELETE /users/:id of the own record is the raw key, both when
the delete query is accepted and when it throws. -/
theorem delete_flash_keys_missing :
    (en.entry "flash.users.create.success").isSome = true ∧
    (en.entry "flash.users.create.error").isSome = true ∧
    (en.entry "flash.users.notAllowed").isSome = true ∧
    (en.entry "flash.users.update.success").isSome = true ∧
    (en.entry "flash.users.update.error").isSome = true ∧
    en.entry "flash.users.delete.success" = none ∧
    en.entry "flash.users.delete.error" = none ∧
    (handle demoApp (.destroy "1") demoCtx).2.flashes =
      [("info", "flash.users.delete.success")] ∧
    (handle refusingApp (.destroy "1") demoCtx).2.flashes =
      [("error", "flash.users.delete.error")] := by
  decide

end Users
